import Mathlib

/-
Verification of the backfill orchestration and reconciliation pipeline of the
stock crawler. The Rust sources are embedded shallowly: the external
collaborators (fetch adapters, persistence gateway, notifier, lock outcomes)
are supplied as explicit environments of outcome functions, and each pipeline
is a pure Lean function from its environment and inputs to a result together
with a trace of observable events.
-/

namespace StockCrawler

/-- Error returned by a fetch adapter (network, timeout or deserialization
failure of a third party source). -/
inductive FetchError where
  | network
  | deserialize
deriving DecidableEq, Repr

/-- Error returned by the persistence gateway on a read or write. -/
inductive PersistError where
  | write
deriving DecidableEq, Repr

/- ---------------------------------------------------------------------------
Dividend backfill, src/internal/backfill/dividend.rs
--------------------------------------------------------------------------- -/

/-- One dividend detail row as returned by the goodinfo dividend crawler for a
stock. Only the year field is inspected by the loop of
processing_without_or_multiple; the remaining columns are carried as an opaque
payload. -/
structure GoodinfoDividendDetail where
  year : Int
  payload : Nat
deriving DecidableEq, Repr

/-- Environment of processing_without_or_multiple: the outcome of
goodinfo dividend visit for each candidate (on success, the HashMap from year
to the dividend details of that year), the wall clock duration of that visit
in seconds, and the outcome of the Dividend upsert for each entity. -/
structure GoodinfoEnv where
  visit : String → Except FetchError (Int → Option (List GoodinfoDividendDetail))
  visitDuration : String → Nat
  upsert : GoodinfoDividendDetail → Except PersistError Unit

/-- Inter candidate delay of the goodinfo dividend loop, in seconds
(thread sleep with Duration from_secs 90 in the source). -/
def dividendDelaySecs : Nat := 90

/-- Observable events of one run of processing_without_or_multiple.
fetchStart records the wall clock second at which the goodinfo visit of a
candidate begins; candidateEnd records the second at which the whole
iteration of that candidate (fetch, 90 second sleep, reconcile and upsert)
has finished; upsertCall records one call of Dividend upsert and whether it
succeeded. -/
inductive GEvent where
  | fetchStart (symbol : String) (time : Nat)
  | upsertCall (d : GoodinfoDividendDetail) (ok : Bool)
  | candidateEnd (symbol : String) (time : Nat)
deriving DecidableEq, Repr

/-- Inner loop of processing_without_or_multiple over the details of the
target year bucket: a detail of a different year is skipped (continue), every
remaining detail is converted to an entity and upserted, the outcome of each
upsert is logged and the loop continues either way. -/
def processDetails (env : GoodinfoEnv) (year : Int)
    (details : List GoodinfoDividendDetail) : List GEvent :=
  details.filterMap fun d =>
    if d.year = year then
      match env.upsert d with
      | .ok _ => some (.upsertCall d true)
      | .error _ => some (.upsertCall d false)
    else none

/-- The events of one candidate between fetch and iteration end: the target
year bucket of the fetched map is taken (a missing bucket continues to the
next candidate) and its details are reconciled. -/
def bucketEvents (env : GoodinfoEnv) (year : Int)
    (dividends : Int → Option (List GoodinfoDividendDetail)) : List GEvent :=
  match dividends year with
  | none => []
  | some details => processDetails env year details

/-- Candidate loop of processing_without_or_multiple, threading a clock in
seconds. The goodinfo visit of each candidate is awaited with the question
mark operator, so a fetch failure aborts the whole run with that error and no
later candidate is fetched; on success the loop sleeps 90 seconds, takes the
target year bucket of the returned map (continuing when it is absent) and
upserts its details. -/
def pwomLoop (env : GoodinfoEnv) (year : Int) :
    Nat → List String → Except FetchError Unit × List GEvent
  | _, [] => (.ok (), [])
  | t, s :: rest =>
    match env.visit s with
    | .error e => (.error e, [.fetchStart s t])
    | .ok dividends =>
      let tEnd := t + env.visitDuration s + dividendDelaySecs
      let next := pwomLoop env year tEnd rest
      (next.1,
        .fetchStart s t ::
          bucketEvents env year dividends ++ .candidateEnd s tEnd :: next.2)

/-- processing_without_or_multiple: the candidate stock symbols (the already
fetched result of dividend fetch_without_or_multiple) are processed strictly
sequentially starting at clock zero. -/
def processing_without_or_multiple (env : GoodinfoEnv) (year : Int)
    (stock_symbols : List String) : Except FetchError Unit × List GEvent :=
  pwomLoop env year 0 stock_symbols

/-- Stored dividend table entity; the fields read or written by
processing_with_unannounced_ex_dividend_dates. -/
structure Dividend where
  security_code : String
  year_of_dividend : Int
  quarter : Int
  ex_dividend_date1 : String
  ex_dividend_date2 : String
  payable_date1 : String
  payable_date2 : String
deriving DecidableEq, Repr

/-- One yahoo dividend detail row, as inspected by the find of
processing_with_unannounced_ex_dividend_dates. -/
structure YahooDividendDetail where
  year_of_dividend : Int
  quarter : Int
  ex_dividend_date1 : String
  ex_dividend_date2 : String
  payable_date1 : String
  payable_date2 : String
deriving DecidableEq, Repr

/-- Environment of processing_with_unannounced_ex_dividend_dates: the outcome
of yahoo dividend visit for each security code (on success, the year indexed
dividend map of the response) and the outcome of update_dividend_date for
each entity. -/
structure YahooEnv where
  visit : String → Except FetchError (Int → Option (List YahooDividendDetail))
  update_dividend_date : Dividend → Except PersistError Unit

/-- Observable events of one run of
processing_with_unannounced_ex_dividend_dates. -/
inductive YEvent where
  | fetchStart (security_code : String)
  | fetchFailed (security_code : String)
  | updateCall (entity : Dividend) (ok : Bool)
deriving DecidableEq, Repr

/-- Predicate of the find over the yahoo details: same dividend year and
quarter as the stored entity, and at least one ex dividend date differing
from the stored value. -/
def yahooDiffers (entity : Dividend) (d : YahooDividendDetail) : Bool :=
  d.year_of_dividend == entity.year_of_dividend &&
    d.quarter == entity.quarter &&
    (d.ex_dividend_date1 != entity.ex_dividend_date1 ||
      d.ex_dividend_date2 != entity.ex_dividend_date2)

/-- Overwrite of the mutable date fields of the stored entity with the values
of the found yahoo detail. -/
def applyYahooDetail (entity : Dividend) (d : YahooDividendDetail) : Dividend :=
  { entity with
    ex_dividend_date1 := d.ex_dividend_date1
    ex_dividend_date2 := d.ex_dividend_date2
    payable_date1 := d.payable_date1
    payable_date2 := d.payable_date2 }

/-- Body of the unannounced ex dividend dates loop for one stored entity: a
fetch failure is logged and the candidate skipped (continue), a missing
target year bucket skips the candidate, otherwise the first detail with equal
identity and differing dates is written back via update_dividend_date, whose
failure is logged and does not abort the loop. -/
def pwuStep (env : YahooEnv) (year : Int) (entity : Dividend) : List YEvent :=
  match env.visit entity.security_code with
  | .error _ =>
    [.fetchStart entity.security_code, .fetchFailed entity.security_code]
  | .ok ymap =>
    match ymap year with
    | none => [.fetchStart entity.security_code]
    | some details =>
      match details.find? (yahooDiffers entity) with
      | none => [.fetchStart entity.security_code]
      | some d =>
        match env.update_dividend_date (applyYahooDetail entity d) with
        | .ok _ =>
          [.fetchStart entity.security_code,
            .updateCall (applyYahooDetail entity d) true]
        | .error _ =>
          [.fetchStart entity.security_code,
            .updateCall (applyYahooDetail entity d) false]

/-- processing_with_unannounced_ex_dividend_dates: the stored unpublished
dividend entities (the already fetched result of
fetch_unpublished_dividends_for_year) are processed sequentially; no step
aborts the loop and the run returns Ok. -/
def processing_with_unannounced_ex_dividend_dates (env : YahooEnv) (year : Int)
    (dividends : List Dividend) : Except FetchError Unit × List YEvent :=
  (.ok (), dividends.flatMap (pwuStep env year))

/- ---------------------------------------------------------------------------
Scheduler, src/internal/scheduler.rs
--------------------------------------------------------------------------- -/

/-- A registered scheduler job: its cron expression and a task identifier
standing for the async task closure. -/
structure Job where
  cronExpr : String
  taskId : Nat
deriving DecidableEq, Repr

/-- Errors of scheduler construction: a malformed cron expression rejected by
Job new_async, a failed sched add, or a failed sched start. -/
inductive SchedError where
  | invalidCron
  | addFailed
  | startFailed
deriving DecidableEq, Repr

/-- Environment of run_cron: which cron expressions the cron library accepts
in Job new_async, and the outcomes of sched add and sched start. -/
structure SchedulerEnv where
  cronValid : String → Bool
  add : Job → Except SchedError Unit
  startResult : Except SchedError Unit

/-- create_job: Job new_async fails on a malformed cron expression, and the
question mark operator turns that failure into an error result of
create_job. -/
def create_job (env : SchedulerEnv) (cron_expr : String) (taskId : Nat) :
    Except SchedError Job :=
  if env.cronValid cron_expr then .ok ⟨cron_expr, taskId⟩
  else .error .invalidCron

/-- The for loop of run_cron adding each surviving job with sched add under
the question mark operator: the first add failure aborts run_cron. -/
def addJobs (env : SchedulerEnv) : List Job → Except SchedError Unit
  | [] => .ok ()
  | j :: rest =>
    match env.add j with
    | .error e => .error e
    | .ok _ => addJobs env rest

/-- run_cron: builds the vector of create_job results, iterates it with
into_iter followed by flatten — which silently skips every Err entry — adds
the remaining jobs and starts the scheduler. The list of jobs actually added
is returned for observability. -/
def run_cron (env : SchedulerEnv) (entries : List (String × Nat)) :
    Except SchedError (List Job) :=
  let jobs := entries.map fun p => create_job env p.1 p.2
  let flattened := jobs.filterMap fun j => j.toOption
  match addJobs env flattened with
  | .error e => .error e
  | .ok _ =>
    match env.startResult with
    | .error e => .error e
    | .ok _ => .ok flattened

/-- Error type of a job task body. -/
inductive JobError where
  | failed (code : Nat)
deriving DecidableEq, Repr

/-- Log records produced by the dispatch wrapper of create_job. -/
inductive DispatchLog where
  | taskFailed (e : JobError)
deriving DecidableEq, Repr

/-- The async wrapper installed by create_job around a registered task: the
returned error of the task is caught with if let Err and logged. The Rust
closure handed to the cron library returns unit; its result is modelled as an
Except value to state that no error value ever escapes the wrapper. -/
def job_wrapper (task : Unit → Except JobError Unit) (u : Unit) :
    Except JobError Unit × List DispatchLog :=
  match task u with
  | .ok _ => (.ok (), [])
  | .error e => (.ok (), [.taskFailed e])

/-- One dispatch round of the scheduler over the registered tasks: every due
job body runs through its create_job wrapper, independently of the others. -/
def dispatchTick (tasks : List (Unit → Except JobError Unit)) :
    List (Except JobError Unit × List DispatchLog) :=
  tasks.map fun task => job_wrapper task ()

/-- Error of the telegram notifier send. -/
inductive NotifyError where
  | sendFailed
deriving DecidableEq, Repr

/-- Error returned by scheduler start: either the propagated run_cron error
or the propagated notifier error. -/
inductive StartError where
  | sched (e : SchedError)
  | notify (e : NotifyError)
deriving DecidableEq, Repr

/-- Observable events of scheduler start: scheduling armed (run_cron
returned Ok, the cron jobs are registered and the scheduler is started),
the one process started notification sent through the notifier, and the two
logged failures. -/
inductive StartEvent where
  | cronArmed
  | startupNotification
  | notifyFailureLogged
  | cronFailureLogged
deriving DecidableEq, Repr

/-- Environment of scheduler start: the outcome of run_cron and the outcome
of the telegram send. -/
structure StartEnv where
  runCronResult : Except SchedError Unit
  sendResult : Except NotifyError Unit

/-- start: run_cron is awaited under map_err (logging) and the question mark
operator, so its failure is logged and returned before any notification;
on success the process started message is sent once, and a send failure is
logged under map_err and returned. The Bool of the result records whether
scheduling is armed when start returns: arming happens inside run_cron and
nothing in start ever undoes it. -/
def start (env : StartEnv) :
    Except StartError Unit × Bool × List StartEvent :=
  match env.runCronResult with
  | .error e => (.error (.sched e), false, [.cronFailureLogged])
  | .ok _ =>
    match env.sendResult with
    | .ok _ => (.ok (), true, [.cronArmed, .startupNotification])
    | .error e =>
      (.error (.notify e), true,
        [.cronArmed, .startupNotification, .notifyFailureLogged])

/- ---------------------------------------------------------------------------
Suspended listing reconciliation, src/internal/crawler/suspend_listing.rs
--------------------------------------------------------------------------- -/

/-- A stock record of the shared cache. The fields not touched by the
suspended listing job (every slowly changing descriptive field other than the
flag) are carried as an opaque payload. -/
structure Stock where
  stock_symbol : String
  name : String
  suspend_listing : Bool
  payload : Nat
deriving DecidableEq, Repr

/-- One row of the twse suspendListingCsvAndHtml response. -/
structure SuspendListing where
  delisting_date : String
  name : String
  stock_symbol : String
deriving DecidableEq, Repr

/-- Environment of the suspended listing visit: the weekend check, the
outcome of the http fetch, the outcomes of the read and write locks of the
shared stock cache, and the outcome of update_suspend_listing against the
database for each stock. -/
structure SuspendEnv where
  isWeekend : Bool
  fetchResult : Except FetchError (List SuspendListing)
  readLockOk : Bool
  writeLockOk : Bool
  update_suspend_listing : Stock → Except PersistError Unit

/-- One decimal digit of an i32 string. -/
def charDigit (ch : Char) : Option Nat :=
  if ch.isDigit then some (ch.toNat - 48) else none

/-- Accumulating decimal parse of a digit sequence; any non digit character
fails the parse. -/
def digitsAux : List Char → Nat → Option Nat
  | [], acc => some acc
  | ch :: rest, acc =>
    match charDigit ch with
    | none => none
    | some d => digitsAux rest (acc * 10 + d)

/-- Decimal parse of a non empty digit sequence. -/
def decDigits : List Char → Option Nat
  | [] => none
  | l => digitsAux l 0

/-- i32 from_str over a character sequence: an optional sign followed by at
least one digit, within the i32 range; anything else is a parse error. -/
def parseI32Chars (l : List Char) : Option Int :=
  let signed : Option Int :=
    match l with
    | '-' :: rest => (decDigits rest).map fun n => -(n : Int)
    | '+' :: rest => (decDigits rest).map fun n => (n : Int)
    | l2 => (decDigits l2).map fun n => (n : Int)
  match signed with
  | some n => if -(2 ^ 31) ≤ n ∧ n < 2 ^ 31 then some n else none
  | none => none

/-- Parse of the leading three characters of the delisting date as the year
of the Republic of China calendar (delisting_date sliced to its first three
bytes and parsed as i32 in the source; the source slice presumes the date
has at least three bytes). -/
def parseRocYear (s : String) : Option Int :=
  parseI32Chars (s.data.take 3)

/-- The body of the loop over the fetched delisting rows: a row is turned
into a cache update only when its symbol is present in the cache snapshot,
the cached record is not already flagged, the delisting year parses and is at
least 110; the update is the cached record cloned with suspend_listing set
to true. -/
def suspendCandidate (stocks : String → Option Stock) (item : SuspendListing) :
    Option Stock :=
  match stocks item.stock_symbol with
  | none => none
  | some stock =>
    if stock.suspend_listing then none
    else
      match parseRocYear item.delisting_date with
      | none => none
      | some year =>
        if year < 110 then none
        else some { stock with suspend_listing := true }

/-- items_to_update of the visit: the fetched rows filtered and cloned by
suspendCandidate under the cache read lock. -/
def items_to_update (stocks : String → Option Stock)
    (delisting : List SuspendListing) : List Stock :=
  delisting.filterMap (suspendCandidate stocks)

/-- updated_stocks of the visit: of the items to update, exactly those whose
database update_suspend_listing succeeded are pushed for write back; a failed
update is logged and its item dropped. On a weekday the items come from the
fetched rows when both the fetch and the read lock succeeded, otherwise the
list stays empty (the failure is logged). -/
def visitUpdates (env : SuspendEnv) (stocks : String → Option Stock) :
    List Stock :=
  let items :=
    match env.fetchResult with
    | .ok delisting =>
      if env.readLockOk then items_to_update stocks delisting else []
    | .error _ => []
  items.filter fun s => (env.update_suspend_listing s).isOk

/-- The final extend of the cache under the write lock: the updated stocks
are inserted keyed by their own stock_symbol, later entries overwriting
earlier ones, and no existing entry is ever removed. -/
def extendCache (stocks : String → Option Stock)
    (upds : List (String × Stock)) : String → Option Stock :=
  upds.foldl (fun m kv => fun k => if k = kv.1 then some kv.2 else m k) stocks

/-- visit of the suspended listing crawler as a transformation of the shared
stock cache: on a weekend it returns at once; otherwise the fetched rows are
reconciled, the surviving items written to the database, and the successfully
written records extended into the cache when the write lock is obtained. -/
def suspend_listing_visit (env : SuspendEnv)
    (stocks : String → Option Stock) : String → Option Stock :=
  if env.isWeekend then stocks
  else if env.writeLockOk then
    extendCache stocks ((visitUpdates env stocks).map fun s => (s.stock_symbol, s))
  else stocks

/- ---------------------------------------------------------------------------
Revenue upsert, src/internal/database/table/revenue.rs
--------------------------------------------------------------------------- -/

/-- One row of the Revenue table as touched by the upsert statement: the
natural key columns SecurityCode and Date, and the eleven non key columns the
statement inserts and, on conflict, overwrites from excluded. The Decimal
values are opaque payloads here and are modelled as integers. -/
structure Revenue where
  security_code : String
  date : Int
  monthly : Int
  last_month : Int
  last_year_this_month : Int
  monthly_accumulated : Int
  compared_with_last_month : Int
  compared_with_last_year_same_month : Int
  last_year_monthly_accumulated : Int
  accumulated_compared_with_last_year : Int
  avg_price : Int
  lowest_price : Int
  highest_price : Int
deriving DecidableEq, Repr

/-- The natural key of the Revenue table: on conflict (SecurityCode, Date). -/
def Revenue.key (r : Revenue) : String × Int :=
  (r.security_code, r.date)

/-- The do update set clause: every non key column of the conflicting stored
row is overwritten with the corresponding excluded value; the key columns are
untouched. -/
def Revenue.overwriteNonKey (old new : Revenue) : Revenue :=
  { new with security_code := old.security_code, date := old.date }

/-- The conflict test of the statement: the stored row carries the same
natural key as the incoming row. -/
def Revenue.keyMatches (r row : Revenue) : Bool :=
  row.key = r.key

/-- Effect of the conflict clause on one stored row: a row with the same
natural key has its non key columns overwritten from excluded, any other row
is untouched. -/
def Revenue.applyConflict (r row : Revenue) : Revenue :=
  if Revenue.keyMatches r row then Revenue.overwriteNonKey row r else row

/-- The store side semantics of the Revenue upsert statement over a table
held as a list of rows: when some stored row has the same natural key the
conflict clause updates the conflicting rows in place (never inserting),
otherwise the new row is appended. -/
def Revenue.upsert (table : List Revenue) (r : Revenue) : List Revenue :=
  if table.any (Revenue.keyMatches r) then
    table.map (Revenue.applyConflict r)
  else table ++ [r]

/- ---------------------------------------------------------------------------
Configuration, src/config.rs
--------------------------------------------------------------------------- -/

/-- The afraid section of the configuration. -/
structure Afraid where
  token : String
  url : String
  path : String
deriving DecidableEq, Repr

/-- The postgresql section of the configuration. -/
structure PostgreSQL where
  host : String
  port : Int
  user : String
  password : String
  db : String
deriving DecidableEq, Repr

/-- The telegram section of the configuration; the allowed map is carried as
an association list from chat id to name. -/
structure Telegram where
  allowed : List (Int × String)
  token : String
deriving DecidableEq, Repr

/-- The bot section of the configuration. -/
structure Bot where
  telegram : Telegram
deriving DecidableEq, Repr

/-- The application configuration as loaded from app.json. -/
structure App where
  afraid : Afraid
  postgresql : PostgreSQL
  bot : Bot
deriving DecidableEq, Repr

/-- The environment variables read by override_with_env; none when the
variable is unset. -/
structure EnvVars where
  afraid_token : Option String
  postgresql_host : Option String
  postgresql_port : Option String
  postgresql_user : Option String
  postgresql_password : Option String
  postgresql_db : Option String
  telegram_allowed : Option String
  telegram_token : Option String

/-- i32 from_str of the port environment variable. -/
def parseI32 (s : String) : Option Int :=
  parseI32Chars s.data

/-- override_with_env: each set environment variable overwrites the
corresponding field loaded from the json file, in the order of the source.
POSTGRESQL_PORT falls back to 5432 when it does not parse as an i32
(unwrap_or 5432), and TELEGRAM_ALLOWED keeps the file value when the json
deserialization fails (the failure is logged). The serde_json parse of the
allowed map is supplied as the function jsonAllowed. -/
def App.override_with_env (app : App) (env : EnvVars)
    (jsonAllowed : String → Option (List (Int × String))) : App :=
  let s1 :=
    match env.afraid_token with
    | some token => { app with afraid := { app.afraid with token := token } }
    | none => app
  let s2 :=
    match env.postgresql_host with
    | some host => { s1 with postgresql := { s1.postgresql with host := host } }
    | none => s1
  let s3 :=
    match env.postgresql_port with
    | some port =>
      { s2 with postgresql :=
        { s2.postgresql with port := (parseI32 port).getD 5432 } }
    | none => s2
  let s4 :=
    match env.postgresql_user with
    | some user => { s3 with postgresql := { s3.postgresql with user := user } }
    | none => s3
  let s5 :=
    match env.postgresql_password with
    | some password =>
      { s4 with postgresql := { s4.postgresql with password := password } }
    | none => s4
  let s6 :=
    match env.postgresql_db with
    | some db => { s5 with postgresql := { s5.postgresql with db := db } }
    | none => s5
  let s7 :=
    match env.telegram_allowed with
    | some tg_allowed =>
      match jsonAllowed tg_allowed with
      | some allowed =>
        { s6 with bot :=
          { s6.bot with telegram := { s6.bot.telegram with allowed := allowed } } }
      | none => s6
    | none => s6
  match env.telegram_token with
  | some token =>
    { s7 with bot :=
      { s7.bot with telegram := { s7.bot.telegram with token := token } } }
  | none => s7

/- ---------------------------------------------------------------------------
Shared lemmas about the dividend pipeline
--------------------------------------------------------------------------- -/

lemma processDetails_shape {env : GoodinfoEnv} {year : Int}
    {details : List GoodinfoDividendDetail} {ev : GEvent}
    (h : ev ∈ processDetails env year details) :
    ∃ d ok, ev = .upsertCall d ok ∧ d ∈ details ∧ d.year = year := by
  rw [processDetails, List.mem_filterMap] at h
  obtain ⟨d, hmem, hd⟩ := h
  by_cases hy : d.year = year
  · rw [if_pos hy] at hd
    cases hu : env.upsert d <;> rw [hu] at hd <;>
      exact ⟨d, _, (Option.some_inj.mp hd).symm, hmem, hy⟩
  · rw [if_neg hy] at hd
    exact absurd hd (by simp)

lemma bucketEvents_shape {env : GoodinfoEnv} {year : Int}
    {dividends : Int → Option (List GoodinfoDividendDetail)} {ev : GEvent}
    (h : ev ∈ bucketEvents env year dividends) :
    ∃ d ok, ev = .upsertCall d ok ∧ d.year = year := by
  rw [bucketEvents] at h
  cases hb : dividends year <;> rw [hb] at h
  · exact absurd h (by simp)
  · obtain ⟨d, ok, rfl, _, hy⟩ := processDetails_shape h
    exact ⟨d, ok, rfl, hy⟩

lemma pwomLoop_cons_err {env : GoodinfoEnv} {year : Int} {t : Nat}
    {s : String} {rest : List String} {e : FetchError}
    (hv : env.visit s = .error e) :
    pwomLoop env year t (s :: rest) = (.error e, [.fetchStart s t]) := by
  rw [pwomLoop, hv]

lemma pwomLoop_cons_ok {env : GoodinfoEnv} {year : Int} {t : Nat}
    {s : String} {rest : List String}
    {f : Int → Option (List GoodinfoDividendDetail)}
    (hv : env.visit s = .ok f) :
    pwomLoop env year t (s :: rest) =
      ((pwomLoop env year (t + env.visitDuration s + dividendDelaySecs) rest).1,
        .fetchStart s t ::
          bucketEvents env year f ++
            .candidateEnd s (t + env.visitDuration s + dividendDelaySecs) ::
              (pwomLoop env year (t + env.visitDuration s + dividendDelaySecs)
                rest).2) := by
  rw [pwomLoop, hv]

lemma pwuStep_fetchStart (env : YahooEnv) (year : Int) (e : Dividend) :
    ∃ tail, pwuStep env year e = .fetchStart e.security_code :: tail := by
  cases hv : env.visit e.security_code with
  | error e1 =>
    exact ⟨[.fetchFailed e.security_code], by rw [pwuStep, hv]⟩
  | ok ymap =>
    cases hb : ymap year with
    | none => exact ⟨[], by rw [pwuStep, hv]; simp [hb]⟩
    | some details =>
      cases hf : details.find? (yahooDiffers e) with
      | none => exact ⟨[], by rw [pwuStep, hv]; simp [hb, hf]⟩
      | some d =>
        cases hu : env.update_dividend_date (applyYahooDetail e d) with
        | ok v =>
          exact ⟨[.updateCall (applyYahooDetail e d) true],
            by rw [pwuStep, hv]; simp [hb, hf, hu]⟩
        | error e2 =>
          exact ⟨[.updateCall (applyYahooDetail e d) false],
            by rw [pwuStep, hv]; simp [hb, hf, hu]⟩

lemma pwomLoop_error_propagates {env : GoodinfoEnv} {year : Int}
    {s : String} {err : FetchError} (hfail : env.visit s = .error err) :
    ∀ (front l2 : List String) (t : Nat),
      (∀ x ∈ front, ∃ f, env.visit x = .ok f) →
      (pwomLoop env year t (front ++ s :: l2)).1 = .error err ∧
      ∀ x, x ∉ front → x ≠ s → ∀ t2,
        GEvent.fetchStart x t2 ∉ (pwomLoop env year t (front ++ s :: l2)).2 := by
  intro front
  induction front with
  | nil =>
    intro l2 t _
    rw [List.nil_append, pwomLoop_cons_err hfail]
    refine ⟨rfl, ?_⟩
    intro x _ hxs t2 hmem
    simp only [List.mem_singleton, GEvent.fetchStart.injEq] at hmem
    exact hxs hmem.1
  | cons a front2 ih =>
    intro l2 t hok
    obtain ⟨f, hf⟩ := hok a (List.mem_cons_self a front2)
    have hok2 : ∀ x ∈ front2, ∃ g, env.visit x = .ok g :=
      fun x hx => hok x (List.mem_cons_of_mem a hx)
    have hrec := ih l2 (t + env.visitDuration a + dividendDelaySecs) hok2
    rw [List.cons_append, pwomLoop_cons_ok hf]
    refine ⟨hrec.1, ?_⟩
    intro x hx hxs t2 hmem
    have hxa : x ≠ a := fun hxa => hx (hxa ▸ List.mem_cons_self a front2)
    have hx2 : x ∉ front2 := fun hmem2 => hx (List.mem_cons_of_mem a hmem2)
    dsimp only at hmem
    rw [List.mem_append] at hmem
    rcases hmem with hmem | hmem
    · rw [List.mem_cons] at hmem
      rcases hmem with hmem | hmem
      · simp only [GEvent.fetchStart.injEq] at hmem
        exact hxa hmem.1
      · obtain ⟨d, ok, heq, _⟩ := bucketEvents_shape hmem
        exact absurd heq (by simp)
    · rw [List.mem_cons] at hmem
      rcases hmem with hmem | hmem
      · exact absurd hmem (by simp)
      · exact hrec.2 x hx2 hxs t2 hmem

/- ---------------------------------------------------------------------------
Claim C1: per candidate fetch error isolation
--------------------------------------------------------------------------- -/

/-- Environment in which every goodinfo dividend visit fails. -/
def c1Env : GoodinfoEnv where
  visit := fun _ => .error .network
  visitDuration := fun _ => 0
  upsert := fun _ => .ok ()

/-- Environment in which every yahoo dividend visit fails. -/
def c1YEnv : YahooEnv where
  visit := fun _ => .error .network
  update_dividend_date := fun _ => .ok ()

/-- A stored dividend entity used in concrete runs. -/
def c1Entity : Dividend :=
  ⟨"2330", 2022, 4, "", "", "", ""⟩

/-- Claim C1 is false for processing_without_or_multiple: with two
candidates, a FetchError on the first candidate makes the run return that
error, and the trace shows the second candidate is never fetched — the
question mark operator on goodinfo dividend visit propagates the error
instead of skipping the candidate. -/
theorem c1_counterexample :
    processing_without_or_multiple c1Env 2023 ["2330", "2454"] =
      (Except.error FetchError.network, [GEvent.fetchStart "2330" 0]) := rfl

/-- Claim C1 as amended: fetch error isolation holds for
processing_with_unannounced_ex_dividend_dates — the run returns Ok, every
candidate entity is fetched, and a candidate whose fetch fails contributes
exactly a logged failure and is skipped — while in
processing_without_or_multiple a FetchError propagates: the run returns that
error and no candidate after the failing one is ever fetched. -/
theorem c1_fetch_error_scope
    (envY : YahooEnv) (envG : GoodinfoEnv) (year : Int)
    (entities : List Dividend) (front l2 : List String) (s : String)
    (err errY : FetchError) (e : Dividend)
    (hfail : envG.visit s = .error err)
    (hok : ∀ x ∈ front, ∃ f, envG.visit x = .ok f)
    (heY : envY.visit e.security_code = .error errY) :
    ((processing_with_unannounced_ex_dividend_dates envY year entities).1 =
        .ok () ∧
      (∀ e2 ∈ entities, YEvent.fetchStart e2.security_code ∈
        (processing_with_unannounced_ex_dividend_dates envY year entities).2) ∧
      pwuStep envY year e =
        [.fetchStart e.security_code, .fetchFailed e.security_code]) ∧
    ((processing_without_or_multiple envG year (front ++ s :: l2)).1 =
        .error err ∧
      ∀ x, x ∉ front → x ≠ s → ∀ t2,
        GEvent.fetchStart x t2 ∉
          (processing_without_or_multiple envG year (front ++ s :: l2)).2) := by
  refine ⟨⟨rfl, ?_, ?_⟩, ?_⟩
  · intro e2 he2
    obtain ⟨tail, htail⟩ := pwuStep_fetchStart envY year e2
    rw [processing_with_unannounced_ex_dividend_dates]
    exact List.mem_flatMap.mpr ⟨e2, he2, htail ▸ List.mem_cons_self _ tail⟩
  · rw [pwuStep, heY]
  · exact pwomLoop_error_propagates hfail front l2 0 hok

/-- Concrete instantiation of the amended claim C1. -/
theorem c1_fetch_error_scope_witness :
    (processing_without_or_multiple c1Env 2023
        ([] ++ "2330" :: ["2454"])).1 = Except.error FetchError.network :=
  (c1_fetch_error_scope c1YEnv c1Env 2023 [c1Entity] [] ["2454"] "2330"
    .network .network c1Entity rfl (by simp) rfl).2.1

/- ---------------------------------------------------------------------------
Claim C4: rate limit spacing of the candidate loop
--------------------------------------------------------------------------- -/

/-- The wall clock seconds at which the fetches of a run start, in trace
order. -/
def fetchStartTimes (tr : List GEvent) : List Nat :=
  tr.filterMap fun ev =>
    match ev with
    | .fetchStart _ t => some t
    | _ => none

lemma fetchStartTimes_bucketEvents (env : GoodinfoEnv) (year : Int)
    (dividends : Int → Option (List GoodinfoDividendDetail)) :
    fetchStartTimes (bucketEvents env year dividends) = [] := by
  rw [fetchStartTimes, List.filterMap_eq_nil_iff]
  intro ev hev
  obtain ⟨d, ok, rfl, _⟩ := bucketEvents_shape hev
  rfl

lemma fetchStartTimes_append (l1 l2 : List GEvent) :
    fetchStartTimes (l1 ++ l2) = fetchStartTimes l1 ++ fetchStartTimes l2 :=
  List.filterMap_append l1 l2 _

lemma fetchStartTimes_cons_fetchStart (s : String) (t : Nat)
    (tr : List GEvent) :
    fetchStartTimes (.fetchStart s t :: tr) = t :: fetchStartTimes tr := by
  simp [fetchStartTimes, List.filterMap_cons]

lemma fetchStartTimes_cons_candidateEnd (s : String) (t : Nat)
    (tr : List GEvent) :
    fetchStartTimes (.candidateEnd s t :: tr) = fetchStartTimes tr := by
  simp [fetchStartTimes, List.filterMap_cons]

lemma pwomLoop_spacing (env : GoodinfoEnv) (year : Int) :
    ∀ (l : List String) (t : Nat),
      List.Chain' (fun a b => a + dividendDelaySecs ≤ b)
        (fetchStartTimes (pwomLoop env year t l).2) ∧
      ∀ u ∈ fetchStartTimes (pwomLoop env year t l).2, t ≤ u := by
  intro l
  induction l with
  | nil => intro t; simp [pwomLoop, fetchStartTimes]
  | cons s rest ih =>
    intro t
    cases hv : env.visit s with
    | error e =>
      rw [pwomLoop_cons_err hv]
      simp [fetchStartTimes, List.filterMap_cons]
    | ok f =>
      rw [pwomLoop_cons_ok hv]
      have hrec := ih (t + env.visitDuration s + dividendDelaySecs)
      dsimp only
      rw [fetchStartTimes_append, fetchStartTimes_cons_fetchStart,
        fetchStartTimes_bucketEvents, fetchStartTimes_cons_candidateEnd,
        List.cons_append, List.nil_append]
      constructor
      · rw [List.chain'_cons']
        refine ⟨?_, hrec.1⟩
        intro y hy
        have := hrec.2 y (List.mem_of_mem_head? hy)
        omega
      · intro u hu
        rcases List.mem_cons.mp hu with rfl | hu
        · exact le_refl u
        · have := hrec.2 u hu
          omega

/-- Environment for the C4 counterexample: every goodinfo visit succeeds
after ten seconds and returns no target year bucket. -/
def c4Env : GoodinfoEnv where
  visit := fun _ => .ok fun _ => none
  visitDuration := fun _ => 10
  upsert := fun _ => .ok ()

/-- Claim C4 is false as stated: with two candidates and a ten second fetch,
the fetch of the second candidate starts at second 100, which is exactly
when the fetch, reconcile and upsert sequence of the first candidate
completes (the 90 second sleep is inserted between its fetch and its
reconciliation, not after the sequence) — not at or after second 100 + 90 as
the claim requires. -/
theorem c4_counterexample :
    (processing_without_or_multiple c4Env 2023 ["2330", "2454"]).2 =
      [.fetchStart "2330" 0, .candidateEnd "2330" 100,
        .fetchStart "2454" 100, .candidateEnd "2454" 200] ∧
    ¬ (100 + dividendDelaySecs ≤ 100) := ⟨rfl, by decide⟩

/-- Claim C4 as amended: the 90 second delay is inserted between the fetch of
a candidate and its reconcile and upsert step, and candidate i+1 is fetched
only once the whole iteration of candidate i has finished; hence in every
run of processing_without_or_multiple the fetch start times of consecutive
candidates are at least 90 seconds apart. -/
theorem c4_rate_limit_spacing (env : GoodinfoEnv) (year : Int)
    (stock_symbols : List String) :
    List.Chain' (fun a b => a + dividendDelaySecs ≤ b)
      (fetchStartTimes
        (processing_without_or_multiple env year stock_symbols).2) :=
  (pwomLoop_spacing env year stock_symbols 0).1

/- ---------------------------------------------------------------------------
Claim C5: period filter
--------------------------------------------------------------------------- -/

lemma pwomLoop_upsert_year (env : GoodinfoEnv) (year : Int) :
    ∀ (l : List String) (t : Nat) (d : GoodinfoDividendDetail) (ok : Bool),
      GEvent.upsertCall d ok ∈ (pwomLoop env year t l).2 → d.year = year := by
  intro l
  induction l with
  | nil => intro t d ok h; simp [pwomLoop] at h
  | cons s rest ih =>
    intro t d ok h
    cases hv : env.visit s with
    | error e =>
      rw [pwomLoop_cons_err hv] at h
      simp at h
    | ok f =>
      rw [pwomLoop_cons_ok hv] at h
      dsimp only at h
      rw [List.mem_append] at h
      rcases h with h | h
      · rw [List.mem_cons] at h
        rcases h with h | h
        · exact absurd h (by simp)
        · obtain ⟨d2, ok2, heq, hy⟩ := bucketEvents_shape h
          obtain ⟨rfl, rfl⟩ : d = d2 ∧ ok = ok2 := by simpa using heq
          exact hy
      · rw [List.mem_cons] at h
        rcases h with h | h
        · exact absurd h (by simp)
        · exact ih _ d ok h

lemma pwomLoop_empty_buckets (env : GoodinfoEnv) (year : Int) :
    ∀ (l : List String) (t : Nat),
      (∀ s ∈ l, ∃ f, env.visit s = .ok f ∧ f year = none) →
      (pwomLoop env year t l).1 = .ok () ∧
      ∀ d ok, GEvent.upsertCall d ok ∉ (pwomLoop env year t l).2 := by
  intro l
  induction l with
  | nil =>
    intro t _
    exact ⟨rfl, fun d ok h => by simp [pwomLoop] at h⟩
  | cons s rest ih =>
    intro t hall
    obtain ⟨f, hf, hnone⟩ := hall s (List.mem_cons_self s rest)
    have hrec := ih (t + env.visitDuration s + dividendDelaySecs)
      (fun x hx => hall x (List.mem_cons_of_mem s hx))
    rw [pwomLoop_cons_ok hf]
    dsimp only
    refine ⟨hrec.1, ?_⟩
    intro d ok h
    rw [List.mem_append] at h
    rcases h with h | h
    · rw [List.mem_cons] at h
      rcases h with h | h
      · exact absurd h (by simp)
      · rw [bucketEvents, hnone] at h
        exact absurd h (by simp)
    · rw [List.mem_cons] at h
      rcases h with h | h
      · exact absurd h (by simp)
      · exact hrec.2 d ok h

/-- Claim C5: in processing_without_or_multiple every upserted dividend
detail has the target year (details of other years are discarded before
reconciliation), and when every candidate yields no bucket for the target
year the run performs no upsert and still completes with Ok; likewise in
processing_with_unannounced_ex_dividend_dates a candidate whose fetched map
has no target year bucket is skipped without error and the run returns
Ok. -/
theorem c5_period_filter (envG : GoodinfoEnv) (envY : YahooEnv) (year : Int)
    (stock_symbols : List String) (entities : List Dividend) :
    (∀ d ok, GEvent.upsertCall d ok ∈
        (processing_without_or_multiple envG year stock_symbols).2 →
      d.year = year) ∧
    ((∀ s ∈ stock_symbols, ∃ f, envG.visit s = .ok f ∧ f year = none) →
      (processing_without_or_multiple envG year stock_symbols).1 = .ok () ∧
      ∀ d ok, GEvent.upsertCall d ok ∉
        (processing_without_or_multiple envG year stock_symbols).2) ∧
    (∀ e ymap, envY.visit e.security_code = .ok ymap → ymap year = none →
      pwuStep envY year e = [.fetchStart e.security_code]) ∧
    (processing_with_unannounced_ex_dividend_dates envY year entities).1 =
      .ok () := by
  refine ⟨?_, ?_, ?_, rfl⟩
  · exact fun d ok h => pwomLoop_upsert_year envG year stock_symbols 0 d ok h
  · exact fun hall => pwomLoop_empty_buckets envG year stock_symbols 0 hall
  · intro e ymap hv hb
    rw [pwuStep, hv]
    simp [hb]

/-- Environment for the C5 witness: every goodinfo visit succeeds with an
empty map. -/
def c5Env : GoodinfoEnv where
  visit := fun _ => .ok fun _ => none
  visitDuration := fun _ => 0
  upsert := fun _ => .ok ()

/-- Environment for the C5 witness on the yahoo side. -/
def c5YEnv : YahooEnv where
  visit := fun _ => .ok fun _ => none
  update_dividend_date := fun _ => .ok ()

/-- Concrete instantiation of claim C5. -/
theorem c5_period_filter_witness :
    (processing_without_or_multiple c5Env 2023 ["2330"]).1 = Except.ok () :=
  ((c5_period_filter c5Env c5YEnv 2023 ["2330"] []).2.1
    (fun _ _ => ⟨fun _ => none, rfl, rfl⟩)).1

/- ---------------------------------------------------------------------------
Claim C2: no redundant write on identical values
--------------------------------------------------------------------------- -/

/-- The dividend detail fetched in the C2 counterexample run. -/
def c2Detail : GoodinfoDividendDetail := ⟨2023, 0⟩

/-- The stored row of the same candidate, identical to the fetched detail. -/
def c2StoredRow : GoodinfoDividendDetail := c2Detail

/-- Environment of the C2 counterexample: the goodinfo visit returns exactly
the one detail for the target year. -/
def c2Env : GoodinfoEnv where
  visit := fun _ => .ok fun y => if y = 2023 then some [c2Detail] else none
  visitDuration := fun _ => 0
  upsert := fun _ => .ok ()

/-- Claim C2 is false for processing_without_or_multiple: the stored dividend
row of the candidate is identical to the freshly fetched detail, yet the run
issues an upsert write for it — the loop upserts every fetched target year
detail without ever comparing against stored values. -/
theorem c2_counterexample :
    c2StoredRow = c2Detail ∧
    (processing_without_or_multiple c2Env 2023 ["2330"]).2 =
      [.fetchStart "2330" 0, .upsertCall c2Detail true,
        .candidateEnd "2330" 90] := ⟨rfl, rfl⟩

/-- Claim C2 as amended: the no write on identical values guarantee holds
only for processing_with_unannounced_ex_dividend_dates — when every fetched
detail matching the stored identity has identical ex dividend dates no
update_dividend_date call is issued, and every issued update comes from a
fetched detail that differs — while processing_without_or_multiple upserts
every fetched target year detail unconditionally. -/
theorem c2_no_redundant_write_scope (envY : YahooEnv) (envG : GoodinfoEnv)
    (year : Int) (e : Dividend) :
    (∀ ymap details, envY.visit e.security_code = .ok ymap →
      ymap year = some details →
      (∀ d ∈ details, yahooDiffers e d = false) →
      pwuStep envY year e = [.fetchStart e.security_code]) ∧
    (∀ e2 ok, YEvent.updateCall e2 ok ∈ pwuStep envY year e →
      ∃ ymap details d, envY.visit e.security_code = .ok ymap ∧
        ymap year = some details ∧ d ∈ details ∧
        yahooDiffers e d = true ∧ e2 = applyYahooDetail e d) ∧
    (∀ details d, d ∈ details → d.year = year →
      ∃ ok, GEvent.upsertCall d ok ∈ processDetails envG year details) := by
  refine ⟨?_, ?_, ?_⟩
  · intro ymap details hv hb hall
    have hfind : details.find? (yahooDiffers e) = none :=
      List.find?_eq_none.mpr fun x hx => by simp [hall x hx]
    rw [pwuStep, hv]
    simp [hb, hfind]
  · intro e2 ok h
    cases hv : envY.visit e.security_code with
    | error e1 =>
      rw [pwuStep, hv] at h
      exact absurd h (by simp)
    | ok ymap =>
      cases hb : ymap year with
      | none =>
        rw [pwuStep, hv] at h
        simp [hb] at h
      | some details =>
        cases hfind : details.find? (yahooDiffers e) with
        | none =>
          rw [pwuStep, hv] at h
          simp [hb, hfind] at h
        | some d =>
          refine ⟨ymap, details, d, rfl, hb,
            List.mem_of_find?_eq_some hfind, List.find?_some hfind, ?_⟩
          rw [pwuStep, hv] at h
          cases hu : envY.update_dividend_date (applyYahooDetail e d) with
          | ok v =>
            simp [hb, hfind, hu] at h
            exact h.1
          | error e3 =>
            simp [hb, hfind, hu] at h
            exact h.1
  · intro details d hd hy
    cases hu : envG.upsert d with
    | ok v =>
      refine ⟨true, ?_⟩
      rw [processDetails]
      exact List.mem_filterMap.mpr ⟨d, hd, by rw [if_pos hy, hu]⟩
    | error e1 =>
      refine ⟨false, ?_⟩
      rw [processDetails]
      exact List.mem_filterMap.mpr ⟨d, hd, by rw [if_pos hy, hu]⟩

/-- The yahoo detail of the C2 witness, identical in every compared field to
the stored entity. -/
def c2YDetail : YahooDividendDetail := ⟨2022, 4, "", "", "", ""⟩

/-- Environment of the C2 witness: yahoo returns exactly the identical
detail for the target year. -/
def c2YEnv : YahooEnv where
  visit := fun _ => .ok fun y => if y = 2023 then some [c2YDetail] else none
  update_dividend_date := fun _ => .ok ()

/-- Concrete instantiation of the amended claim C2: identical fetched values,
no write issued. -/
theorem c2_no_redundant_write_scope_witness :
    pwuStep c2YEnv 2023 c1Entity = [.fetchStart c1Entity.security_code] :=
  (c2_no_redundant_write_scope c2YEnv c2Env 2023 c1Entity).1
    (fun y => if y = 2023 then some [c2YDetail] else none) [c2YDetail]
    rfl (by decide) (by decide)

/- ---------------------------------------------------------------------------
Claim C3: malformed cron expressions at registration
--------------------------------------------------------------------------- -/

lemma addJobs_ok {env : SchedulerEnv} (hadd : ∀ j, env.add j = .ok ()) :
    ∀ l : List Job, addJobs env l = .ok () := by
  intro l
  induction l with
  | nil => rfl
  | cons j rest ih => rw [addJobs, hadd j, ih]

lemma flatten_create_job (env : SchedulerEnv) :
    ∀ entries : List (String × Nat),
      ((entries.map fun p => create_job env p.1 p.2).filterMap
          fun j => j.toOption) =
        (entries.filter fun p => env.cronValid p.1).map
          fun p => (⟨p.1, p.2⟩ : Job) := by
  intro entries
  induction entries with
  | nil => rfl
  | cons p rest ih =>
    rw [List.map_cons, List.filterMap_cons, List.filter_cons]
    by_cases h : env.cronValid p.1
    · rw [if_pos h, create_job, if_pos h]
      simpa [Except.toOption, List.filterMap_map] using ih
    · rw [if_neg h, create_job, if_neg h]
      simpa [Except.toOption, List.filterMap_map] using ih

/-- Environment of the C3 scenario: the cron library accepts only the
six field expression used by the valid job; sched add and sched start
succeed. -/
def c3Env : SchedulerEnv where
  cronValid := fun s => s == "0 0 17 * * *"
  add := fun _ => .ok ()
  startResult := .ok ()

/-- Claim C3 is false: with one malformed and one valid cron expression,
create_job does return an error for the malformed one, but run_cron returns
Ok with only the valid job — into_iter followed by flatten silently discards
the failed job instead of failing scheduler startup. -/
theorem c3_counterexample :
    create_job c3Env "not a cron" 0 = .error .invalidCron ∧
    run_cron c3Env [("not a cron", 0), ("0 0 17 * * *", 1)] =
      .ok [⟨"0 0 17 * * *", 1⟩] := by
  constructor
  · rfl
  · rfl

/-- Claim C3 as amended: a malformed cron expression makes create_job return
an error, but it is not fatal at startup — run_cron silently drops every
failed job through flatten and, when the add and start calls succeed,
returns Ok with exactly the jobs whose cron expressions were accepted. -/
theorem c3_invalid_cron_not_fatal (env : SchedulerEnv)
    (entries : List (String × Nat))
    (hadd : ∀ j, env.add j = .ok ()) (hstart : env.startResult = .ok ()) :
    (∀ expr id, env.cronValid expr = false →
      create_job env expr id = .error .invalidCron) ∧
    run_cron env entries =
      .ok ((entries.filter fun p => env.cronValid p.1).map
        fun p => (⟨p.1, p.2⟩ : Job)) := by
  constructor
  · intro expr id h
    rw [create_job, if_neg (by simp [h])]
  · simp only [run_cron]
    rw [flatten_create_job env entries,
      addJobs_ok hadd ((entries.filter fun p => env.cronValid p.1).map
        fun p => (⟨p.1, p.2⟩ : Job)), hstart]

/-- Concrete instantiation of the amended claim C3. -/
theorem c3_invalid_cron_not_fatal_witness :
    run_cron c3Env [("not a cron", 0), ("0 0 17 * * *", 1)] =
      .ok (([("not a cron", (0 : Nat)), ("0 0 17 * * *", 1)].filter
          fun p => c3Env.cronValid p.1).map
        fun p => (⟨p.1, p.2⟩ : Job)) :=
  (c3_invalid_cron_not_fatal c3Env [("not a cron", 0), ("0 0 17 * * *", 1)]
    (fun _ => rfl) rfl).2

/- ---------------------------------------------------------------------------
Claim C6: idempotent upsert
--------------------------------------------------------------------------- -/

lemma Revenue.overwriteNonKey_key (old new : Revenue) :
    (Revenue.overwriteNonKey old new).key = old.key := rfl

lemma Revenue.overwriteNonKey_self (r : Revenue) :
    Revenue.overwriteNonKey r r = r := rfl

lemma Revenue.overwriteNonKey_eq_of_key {row r : Revenue}
    (h : row.key = r.key) : Revenue.overwriteNonKey row r = r := by
  rw [Revenue.key, Revenue.key, Prod.mk.injEq] at h
  rw [Revenue.overwriteNonKey, h.1, h.2]

lemma Revenue.keyMatches_iff {r row : Revenue} :
    Revenue.keyMatches r row = true ↔ row.key = r.key := by
  simp [Revenue.keyMatches]

lemma Revenue.applyConflict_key (r row : Revenue) :
    (Revenue.applyConflict r row).key = row.key := by
  rw [Revenue.applyConflict]
  by_cases h : Revenue.keyMatches r row = true
  · rw [if_pos h]
    rfl
  · rw [if_neg h]

lemma Revenue.applyConflict_idem (r row : Revenue) :
    Revenue.applyConflict r (Revenue.applyConflict r row) =
      Revenue.applyConflict r row := by
  by_cases h : Revenue.keyMatches r row = true
  · have h2 : Revenue.applyConflict r row = Revenue.overwriteNonKey row r := by
      rw [Revenue.applyConflict, if_pos h]
    have h3 : Revenue.keyMatches r (Revenue.overwriteNonKey row r) = true := by
      rw [Revenue.keyMatches_iff, Revenue.overwriteNonKey_key]
      exact Revenue.keyMatches_iff.mp h
    rw [h2, Revenue.applyConflict, if_pos h3]
    rfl
  · have h2 : Revenue.applyConflict r row = row := by
      rw [Revenue.applyConflict, if_neg h]
    rw [h2, Revenue.applyConflict, if_neg h]

lemma Revenue.upsert_keys_pos {t : List Revenue} {r : Revenue}
    (h : t.any (Revenue.keyMatches r) = true) :
    (Revenue.upsert t r).map Revenue.key = t.map Revenue.key := by
  rw [Revenue.upsert, if_pos h, List.map_map]
  exact List.map_congr_left fun a _ => Revenue.applyConflict_key r a

lemma Revenue.upsert_keys_neg {t : List Revenue} {r : Revenue}
    (h : ¬ t.any (Revenue.keyMatches r) = true) :
    (Revenue.upsert t r).map Revenue.key = t.map Revenue.key ++ [r.key] := by
  rw [Revenue.upsert, if_neg h, List.map_append]
  rfl

/-- Claim C6: the Revenue upsert is idempotent — applying the same record
twice leaves the table in the same final state as applying it once — it
preserves uniqueness of the natural key (SecurityCode, Date), and after an
upsert every row carrying the natural key of the incoming record equals that
record: all non key columns of a conflicting row are overwritten with no
residual stale field. -/
theorem c6_upsert_idempotent :
    (∀ (t : List Revenue) (r : Revenue),
      Revenue.upsert (Revenue.upsert t r) r = Revenue.upsert t r) ∧
    (∀ (t : List Revenue) (r : Revenue),
      (t.map Revenue.key).Nodup →
        ((Revenue.upsert t r).map Revenue.key).Nodup) ∧
    (∀ (t : List Revenue) (r row : Revenue),
      row ∈ Revenue.upsert t r → row.key = r.key → row = r) := by
  refine ⟨?_, ?_, ?_⟩
  · intro t r
    by_cases h : t.any (Revenue.keyMatches r) = true
    · obtain ⟨row0, hrow0, hkey0⟩ := List.any_eq_true.mp h
      have hany2 : (t.map (Revenue.applyConflict r)).any
          (Revenue.keyMatches r) = true := by
        refine List.any_eq_true.mpr
          ⟨Revenue.applyConflict r row0, List.mem_map_of_mem _ hrow0, ?_⟩
        rw [Revenue.keyMatches_iff, Revenue.applyConflict_key]
        exact Revenue.keyMatches_iff.mp hkey0
      have hinner : Revenue.upsert t r = t.map (Revenue.applyConflict r) := by
        rw [Revenue.upsert, if_pos h]
      rw [hinner, Revenue.upsert, if_pos hany2, List.map_map]
      exact List.map_congr_left fun a _ => Revenue.applyConflict_idem r a
    · have hr : Revenue.keyMatches r r = true := by
        rw [Revenue.keyMatches_iff]
      have hany2 : ((t ++ [r]).any (Revenue.keyMatches r)) = true :=
        List.any_eq_true.mpr ⟨r, by simp, hr⟩
      have hinner : Revenue.upsert t r = t ++ [r] := by
        rw [Revenue.upsert, if_neg h]
      rw [hinner, Revenue.upsert, if_pos hany2, List.map_append]
      have h1 : t.map (Revenue.applyConflict r) = t := by
        have hall : ∀ a ∈ t, Revenue.keyMatches r a = false := by
          intro a ha
          rcases Bool.eq_false_or_eq_true (Revenue.keyMatches r a) with ht | hf
          · exact absurd (List.any_eq_true.mpr ⟨a, ha, ht⟩) h
          · exact hf
        calc t.map (Revenue.applyConflict r)
            = t.map id := List.map_congr_left fun a ha => by
              rw [Revenue.applyConflict, if_neg (by simp [hall a ha])]
              rfl
          _ = t := List.map_id t
      have h2 : [r].map (Revenue.applyConflict r) = [r] := by
        rw [List.map_singleton, Revenue.applyConflict, if_pos hr,
          Revenue.overwriteNonKey_self]
      rw [h1, h2]
  · intro t r hnodup
    by_cases h : t.any (Revenue.keyMatches r) = true
    · rw [Revenue.upsert_keys_pos h]
      exact hnodup
    · rw [Revenue.upsert_keys_neg h]
      rw [List.nodup_append]
      refine ⟨hnodup, List.nodup_singleton _, ?_⟩
      intro k hk hk2
      rw [List.mem_singleton] at hk2
      obtain ⟨row0, hrow0, hkey0⟩ := List.mem_map.mp hk
      exact h (List.any_eq_true.mpr
        ⟨row0, hrow0, Revenue.keyMatches_iff.mpr (hkey0.trans hk2)⟩)
  · intro t r row hmem hkey
    by_cases h : t.any (Revenue.keyMatches r) = true
    · rw [Revenue.upsert, if_pos h] at hmem
      obtain ⟨a, ha, rfl⟩ := List.mem_map.mp hmem
      by_cases hc : Revenue.keyMatches r a = true
      · rw [Revenue.applyConflict, if_pos hc]
        exact Revenue.overwriteNonKey_eq_of_key
          (Revenue.keyMatches_iff.mp hc)
      · rw [Revenue.applyConflict_key] at hkey
        exact absurd (Revenue.keyMatches_iff.mpr hkey) hc
    · rw [Revenue.upsert, if_neg h] at hmem
      rw [List.mem_append] at hmem
      rcases hmem with hmem | hmem
      · exact absurd (List.any_eq_true.mpr
          ⟨row, hmem, Revenue.keyMatches_iff.mpr hkey⟩) h
      · exact List.mem_singleton.mp hmem

/-- A concrete Revenue record for the C6 witness. -/
def c6Row : Revenue :=
  ⟨"2330", 202301, 1, 2, 3, 4, 5, 6, 7, 8, 9, 10, 11⟩

/-- Concrete instantiation of claim C6: upserting into an empty table keeps
the natural key unique. -/
theorem c6_upsert_idempotent_witness :
    ((Revenue.upsert [] c6Row).map Revenue.key).Nodup :=
  c6_upsert_idempotent.2.1 [] c6Row (by simp)

/- ---------------------------------------------------------------------------
Claim C7: job errors are contained by the dispatch wrapper
--------------------------------------------------------------------------- -/

/-- Claim C7: the create_job wrapper never lets a task error escape (its
result is always Ok), a returned task error is caught and logged, and one
dispatch round treats every registered job independently — the execution of
the surrounding jobs is exactly the same list of wrapper runs whatever the
middle task does. -/
theorem c7_job_error_contained :
    (∀ (task : Unit → Except JobError Unit) (u : Unit),
      (job_wrapper task u).1 = .ok ()) ∧
    (∀ (task : Unit → Except JobError Unit) (u : Unit) (e : JobError),
      task u = .error e → (job_wrapper task u).2 = [.taskFailed e]) ∧
    (∀ (l1 l2 : List (Unit → Except JobError Unit))
      (task : Unit → Except JobError Unit),
      dispatchTick (l1 ++ task :: l2) =
        dispatchTick l1 ++ job_wrapper task () :: dispatchTick l2) := by
  refine ⟨?_, ?_, ?_⟩
  · intro task u
    rw [job_wrapper]
    cases task u <;> rfl
  · intro task u e h
    rw [job_wrapper, h]
  · intro l1 l2 task
    rw [dispatchTick, List.map_append, List.map_cons]
    rfl

/-- A job task that always fails, for the C7 witness. -/
def c7Task : Unit → Except JobError Unit :=
  fun _ => .error (.failed 7)

/-- Concrete instantiation of claim C7: the failing task is caught and its
error logged. -/
theorem c7_job_error_contained_witness :
    (job_wrapper c7Task ()).1 = Except.ok () ∧
    (job_wrapper c7Task ()).2 = [.taskFailed (.failed 7)] :=
  ⟨c7_job_error_contained.1 c7Task (),
    c7_job_error_contained.2.1 c7Task () (.failed 7) rfl⟩

/- ---------------------------------------------------------------------------
Claim C8: one startup notification, after arming, failures non fatal
--------------------------------------------------------------------------- -/

/-- Claim C8: when run_cron succeeds the startup notification is sent exactly
once and only after scheduling has been armed (the trace is cronArmed
followed by the notification, possibly followed by the logged send failure);
when run_cron fails no notification is sent; and a send failure is logged
and does not prevent the scheduler from running — the armed flag of the
result stays true. -/
theorem c8_startup_notification (env : StartEnv) :
    (env.runCronResult = .ok () →
      ((start env).2.2 = [.cronArmed, .startupNotification] ∨
        (start env).2.2 =
          [.cronArmed, .startupNotification, .notifyFailureLogged]) ∧
      ((start env).2.2.count StartEvent.startupNotification = 1)) ∧
    (∀ e, env.runCronResult = .error e →
      (start env).2.2.count StartEvent.startupNotification = 0) ∧
    (∀ e, env.runCronResult = .ok () → env.sendResult = .error e →
      (start env).2.1 = true ∧
        StartEvent.notifyFailureLogged ∈ (start env).2.2) := by
  refine ⟨?_, ?_, ?_⟩
  · intro hok
    cases hs : env.sendResult with
    | ok v =>
      rw [start, hok, hs]
      exact ⟨Or.inl rfl, rfl⟩
    | error e =>
      rw [start, hok, hs]
      exact ⟨Or.inr rfl, rfl⟩
  · intro e herr
    rw [start, herr]
    rfl
  · intro e hok hs
    rw [start, hok, hs]
    exact ⟨rfl, by simp⟩

/-- Concrete instantiation of claim C8: a failing notifier send leaves the
scheduler armed. -/
theorem c8_startup_notification_witness :
    (start ⟨.ok (), .error .sendFailed⟩).2.1 = true ∧
    StartEvent.notifyFailureLogged ∈
      (start ⟨.ok (), .error .sendFailed⟩).2.2 :=
  (c8_startup_notification ⟨.ok (), .error .sendFailed⟩).2.2
    .sendFailed rfl rfl

/- ---------------------------------------------------------------------------
Claim C9: suspended listing reconciliation frame property
--------------------------------------------------------------------------- -/

lemma extendCache_isSome {k : String} :
    ∀ (upds : List (String × Stock)) (stocks : String → Option Stock),
      (∃ s, stocks k = some s) → ∃ s2, extendCache stocks upds k = some s2 := by
  intro upds
  induction upds with
  | nil => exact fun stocks h => h
  | cons kv rest ih =>
    intro stocks h
    rw [extendCache, List.foldl_cons]
    obtain ⟨s, hs⟩ := h
    by_cases hk : k = kv.1
    · exact ih _ ⟨kv.2, if_pos hk⟩
    · exact ih _ ⟨s, (if_neg hk).trans hs⟩

lemma extendCache_not_mem {k : String} :
    ∀ (upds : List (String × Stock)) (stocks : String → Option Stock),
      (∀ kv ∈ upds, kv.1 ≠ k) → extendCache stocks upds k = stocks k := by
  intro upds
  induction upds with
  | nil => exact fun stocks _ => rfl
  | cons kv rest ih =>
    intro stocks hall
    rw [extendCache, List.foldl_cons]
    have hne : k ≠ kv.1 :=
      fun hk => hall kv (List.mem_cons_self kv rest) hk.symm
    have := ih (fun k2 => if k2 = kv.1 then some kv.2 else stocks k2)
      fun kv2 h2 => hall kv2 (List.mem_cons_of_mem kv h2)
    rw [extendCache] at this
    rw [this]
    exact if_neg hne

lemma visitUpdates_shape {env : SuspendEnv} {stocks : String → Option Stock}
    {s2 : Stock} (h : s2 ∈ visitUpdates env stocks) :
    ∃ delisting item old,
      env.fetchResult = .ok delisting ∧ item ∈ delisting ∧
      stocks item.stock_symbol = some old ∧ old.suspend_listing = false ∧
      (∃ y, parseRocYear item.delisting_date = some y ∧ 110 ≤ y) ∧
      (env.update_suspend_listing s2).isOk = true ∧
      s2 = { old with suspend_listing := true } := by
  rw [visitUpdates] at h
  rw [List.mem_filter] at h
  obtain ⟨hmem, hok⟩ := h
  cases hf : env.fetchResult with
  | error e => rw [hf] at hmem; exact absurd hmem (by simp)
  | ok delisting =>
    rw [hf] at hmem
    dsimp only at hmem
    by_cases hr : env.readLockOk
    · rw [if_pos hr] at hmem
      rw [items_to_update, List.mem_filterMap] at hmem
      obtain ⟨item, hitem, hcand⟩ := hmem
      rw [suspendCandidate] at hcand
      cases hs : stocks item.stock_symbol with
      | none => rw [hs] at hcand; exact absurd hcand (by simp)
      | some old =>
        rw [hs] at hcand
        dsimp only at hcand
        by_cases hflag : old.suspend_listing
        · rw [if_pos hflag] at hcand
          exact absurd hcand (by simp)
        · rw [if_neg hflag] at hcand
          cases hy : parseRocYear item.delisting_date with
          | none => rw [hy] at hcand; exact absurd hcand (by simp)
          | some y =>
            rw [hy] at hcand
            dsimp only at hcand
            by_cases hlt : y < 110
            · rw [if_pos hlt] at hcand
              exact absurd hcand (by simp)
            · rw [if_neg hlt] at hcand
              exact ⟨delisting, item, old, rfl, hitem, hs,
                Bool.eq_false_iff.mpr hflag, ⟨y, hy, Int.not_lt.mp hlt⟩,
                hok, (Option.some_inj.mp hcand).symm⟩
    · rw [if_neg hr] at hmem
      exact absurd hmem (by simp)

/-- Claim C9: the suspended listing visit never removes an entry from the
shared stock cache; every record it writes back is the previously cached
record of some fetched delisting row with only the suspend_listing flag set
to true; such a record is written only when the symbol was present in the
cache, not already flagged, its delisting year parsed and was at least 110,
and its database update succeeded; and every cache key outside the written
set keeps its exact previous value. -/
theorem c9_suspend_listing_frame (env : SuspendEnv)
    (stocks : String → Option Stock) :
    (∀ k s, stocks k = some s →
      ∃ s2, suspend_listing_visit env stocks k = some s2) ∧
    (∀ s2, s2 ∈ visitUpdates env stocks →
      ∃ delisting item old,
        env.fetchResult = .ok delisting ∧ item ∈ delisting ∧
        stocks item.stock_symbol = some old ∧ old.suspend_listing = false ∧
        (∃ y, parseRocYear item.delisting_date = some y ∧ 110 ≤ y) ∧
        (env.update_suspend_listing s2).isOk = true ∧
        s2 = { old with suspend_listing := true }) ∧
    (∀ k, (∀ s2 ∈ visitUpdates env stocks, s2.stock_symbol ≠ k) →
      suspend_listing_visit env stocks k = stocks k) := by
  refine ⟨?_, fun s2 h => visitUpdates_shape h, ?_⟩
  · intro k s h
    rw [suspend_listing_visit]
    by_cases hw : env.isWeekend
    · rw [if_pos hw]
      exact ⟨s, h⟩
    · rw [if_neg hw]
      by_cases hl : env.writeLockOk
      · rw [if_pos hl]
        exact extendCache_isSome _ stocks ⟨s, h⟩
      · rw [if_neg hl]
        exact ⟨s, h⟩
  · intro k hall
    rw [suspend_listing_visit]
    by_cases hw : env.isWeekend
    · rw [if_pos hw]
    · rw [if_neg hw]
      by_cases hl : env.writeLockOk
      · rw [if_pos hl]
        refine extendCache_not_mem _ stocks ?_
        intro kv hkv
        obtain ⟨s2, hs2, rfl⟩ := List.mem_map.mp hkv
        exact hall s2 hs2
      · rw [if_neg hl]

/-- Cache and environment of the C9 witness: one cached stock and one
fetched delisting row for it. -/
def c9Stock : Stock := ⟨"2330", "x", false, 0⟩

/-- The cache of the C9 witness. -/
def c9Cache : String → Option Stock :=
  fun k => if k = "2330" then some c9Stock else none

/-- The environment of the C9 witness. -/
def c9Env : SuspendEnv :=
  ⟨false, .ok [⟨"1100101", "x", "2330"⟩], true, true, fun _ => .ok ()⟩

/-- Concrete instantiation of claim C9: the cached entry survives the
visit. -/
theorem c9_suspend_listing_frame_witness :
    ∃ s2, suspend_listing_visit c9Env c9Cache "2330" = some s2 :=
  (c9_suspend_listing_frame c9Env c9Cache).1 "2330" c9Stock (by decide)

/- ---------------------------------------------------------------------------
Claim C10: environment variables override the json configuration
--------------------------------------------------------------------------- -/

lemma override_with_env_eq (app : App) (env : EnvVars)
    (jsonAllowed : String → Option (List (Int × String))) :
    App.override_with_env app env jsonAllowed =
      { afraid := { app.afraid with
          token := env.afraid_token.getD app.afraid.token }
        postgresql :=
          { host := env.postgresql_host.getD app.postgresql.host
            port :=
              match env.postgresql_port with
              | some p => (parseI32 p).getD 5432
              | none => app.postgresql.port
            user := env.postgresql_user.getD app.postgresql.user
            password := env.postgresql_password.getD app.postgresql.password
            db := env.postgresql_db.getD app.postgresql.db }
        bot := { telegram :=
          { allowed :=
              match env.telegram_allowed with
              | some s =>
                match jsonAllowed s with
                | some allowed => allowed
                | none => app.bot.telegram.allowed
              | none => app.bot.telegram.allowed
            token := env.telegram_token.getD app.bot.telegram.token } } } := by
  obtain ⟨a, b, c, d, e, f, g, h⟩ := env
  simp only [App.override_with_env]
  cases a <;> cases b <;> cases c <;> cases d <;> cases e <;> cases f <;>
    cases h <;> cases g <;> (try rfl) <;>
    (rename_i s; dsimp only; cases jsonAllowed s <;> rfl)

/-- Claim C10: every set environment variable overrides the corresponding
field of the configuration loaded from the json file — the afraid token, the
postgresql host, port, user, password and db, the telegram allowed list and
the telegram token; a set POSTGRESQL_PORT that does not parse as an i32
yields port 5432, and a set TELEGRAM_ALLOWED that is not valid json keeps
the allowed list of the file unchanged. -/
theorem c10_env_override (app : App) (env : EnvVars)
    (jsonAllowed : String → Option (List (Int × String))) :
    (∀ v, env.afraid_token = some v →
      (App.override_with_env app env jsonAllowed).afraid.token = v) ∧
    (∀ v, env.postgresql_host = some v →
      (App.override_with_env app env jsonAllowed).postgresql.host = v) ∧
    (∀ v n, env.postgresql_port = some v → parseI32 v = some n →
      (App.override_with_env app env jsonAllowed).postgresql.port = n) ∧
    (∀ v, env.postgresql_port = some v → parseI32 v = none →
      (App.override_with_env app env jsonAllowed).postgresql.port = 5432) ∧
    (∀ v, env.postgresql_user = some v →
      (App.override_with_env app env jsonAllowed).postgresql.user = v) ∧
    (∀ v, env.postgresql_password = some v →
      (App.override_with_env app env jsonAllowed).postgresql.password = v) ∧
    (∀ v, env.postgresql_db = some v →
      (App.override_with_env app env jsonAllowed).postgresql.db = v) ∧
    (∀ v l, env.telegram_allowed = some v → jsonAllowed v = some l →
      (App.override_with_env app env jsonAllowed).bot.telegram.allowed = l) ∧
    (∀ v, env.telegram_allowed = some v → jsonAllowed v = none →
      (App.override_with_env app env jsonAllowed).bot.telegram.allowed =
        app.bot.telegram.allowed) ∧
    (∀ v, env.telegram_token = some v →
      (App.override_with_env app env jsonAllowed).bot.telegram.token = v) := by
  rw [override_with_env_eq]
  refine ⟨?_, ?_, ?_, ?_, ?_, ?_, ?_, ?_, ?_, ?_⟩
  · intro v hv; rw [hv]; rfl
  · intro v hv; rw [hv]; rfl
  · intro v n hv hp
    rw [hv]
    dsimp only
    rw [hp]
    rfl
  · intro v hv hp
    rw [hv]
    dsimp only
    rw [hp]
    rfl
  · intro v hv; rw [hv]; rfl
  · intro v hv; rw [hv]; rfl
  · intro v hv; rw [hv]; rfl
  · intro v l hv hj
    rw [hv]
    dsimp only
    rw [hj]
  · intro v hv hj
    rw [hv]
    dsimp only
    rw [hj]
  · intro v hv; rw [hv]; rfl

/-- The json file configuration of the C10 witness. -/
def c10App : App :=
  ⟨⟨"ftoken", "", ""⟩, ⟨"fhost", 1111, "fuser", "fpass", "fdb"⟩,
    ⟨⟨[(1, "x")], "ftok"⟩⟩⟩

/-- The environment of the C10 witness: a port that does not parse and an
allowed list that is not valid json. -/
def c10Env : EnvVars :=
  ⟨none, none, some "abc", none, none, none, some "notjson", none⟩

/-- The serde_json outcome of the C10 witness: parsing fails. -/
def c10Json : String → Option (List (Int × String)) :=
  fun _ => none

/-- Concrete instantiation of claim C10: the unparsable port falls back to
5432 and the invalid allowed list keeps the file value. -/
theorem c10_env_override_witness :
    (App.override_with_env c10App c10Env c10Json).postgresql.port = 5432 ∧
    (App.override_with_env c10App c10Env c10Json).bot.telegram.allowed =
      c10App.bot.telegram.allowed :=
  ⟨(c10_env_override c10App c10Env c10Json).2.2.2.1 "abc" rfl (by decide),
    (c10_env_override c10App c10Env c10Json).2.2.2.2.2.2.2.2.1 "notjson"
      rfl rfl⟩

end StockCrawler


